import Mathlib

/-!
Verification development for the StabLab.jl benchmark/validation repository.

The repository drives an external Allan-deviation statistics engine from
benchmark and validation scripts.  The tau-generation loops, the tau-list
post-processing, the TIE/MTIE tau filtering and the phase-data file loader
are embedded below directly from the Python sources; the deviation
estimators themselves, which the scripts only invoke, are modelled from the
specification (each such definition says so in its doc comment).

All data values are modelled as rationals; the scripts' floating-point
arithmetic is treated as exact real arithmetic, as the specification's
algebraic identities presuppose.
-/

namespace StabLab

/-! ## Tau generation (src/tests/benchmark_vs_allantools.py,
src/tests/mega_benchmark_python.py, src/validation/generate_allantools_6krb25apr.py,
src/validation/generate_allantools_6krbsnip.py) -/

/-- Octave-spaced averaging-factor loop: `m = 1; while m <= max_m: append m; m *= 2`.
The fuel argument only bounds the recursion; `maxM + 1` iterations always
suffice because `m` doubles from 1 and the loop exits as soon as `m > maxM`. -/
def octaveLoop : ℕ → ℕ → ℕ → List ℕ
  | 0, _, _ => []
  | fuel + 1, m, maxM => if m ≤ maxM then m :: octaveLoop fuel (2 * m) maxM else []

/-- Octave tau generation as in the uncapped generators
(`generate_allantools_6krb25apr.py` lines 31-38): all powers of two `≤ maxM`. -/
def octaveMs (maxM : ℕ) : List ℕ := octaveLoop (maxM + 1) 1 maxM

/-- Octave loop with the benchmark drivers' extra point cap:
`while m <= max_m and len(m_list) < max_tau_points`.  `rem` is the number of
points still allowed, i.e. `max_tau_points - len(m_list)`. -/
def octaveLoopCapped : ℕ → ℕ → ℕ → ℕ → List ℕ
  | 0, _, _, _ => []
  | fuel + 1, m, maxM, rem =>
    if m ≤ maxM ∧ 0 < rem then m :: octaveLoopCapped fuel (2 * m) maxM (rem - 1) else []

/-- Capped octave tau generation as in `benchmark_vs_allantools.py` lines 31-38
and `mega_benchmark_python.py` lines 49-55 (`max_tau_points = 20` by default). -/
def octaveMsCapped (maxM cap : ℕ) : List ℕ := octaveLoopCapped (maxM + 1) 1 maxM cap

lemma octaveLoopCapped_eq_take (fuel m maxM rem : ℕ) :
    octaveLoopCapped fuel m maxM rem = (octaveLoop fuel m maxM).take rem := by
  induction fuel generalizing m rem with
  | zero => simp [octaveLoopCapped, octaveLoop]
  | succ f ih =>
    by_cases hm : m ≤ maxM
    · cases rem with
      | zero => simp [octaveLoopCapped, octaveLoop, hm]
      | succ r =>
        simp only [octaveLoopCapped, octaveLoop, hm, true_and, if_pos (Nat.succ_pos r),
          Nat.succ_sub_one, if_true, List.take_succ_cons]
        rw [ih]
    · simp [octaveLoopCapped, octaveLoop, hm]

lemma octaveMsCapped_eq_take (maxM cap : ℕ) :
    octaveMsCapped maxM cap = (octaveMs maxM).take cap :=
  octaveLoopCapped_eq_take _ _ _ _

/-! ## Explicit tau lists (src/validation/generate_allantools_reference.py lines
40-44, src/validation/generate_real_data_reference.py lines 53-57): a
caller-supplied tau array is passed through `np.unique`, which returns the
distinct values sorted in increasing order. -/

/-- Post-processing of a caller-supplied tau list, as done by `np.unique`:
deduplicate and sort increasingly, with no further validation of the values. -/
def explicitTaus (l : List ℚ) : List ℚ := l.toFinset.sort (fun a b => a ≤ b)

/-! ## TIE/MTIE tau filtering (src/validation/generate_allantools_reference.py
lines 97-114, src/validation/generate_real_data_reference.py lines 79-89). -/

/-- Tau subset handed to TIE/MTIE by `generate_allantools_reference.py`:
`tie_taus = taus[taus <= 50]`. -/
def tieTausSynthetic (taus : List ℚ) : List ℚ := taus.filter (fun t => t ≤ 50)

/-- Tau subset handed to TIE/MTIE by `generate_real_data_reference.py`:
`test_taus = taus[taus <= min(100, max_tau // 2)]`. -/
def tieTausReal (taus : List ℚ) (maxTau : ℕ) : List ℚ :=
  taus.filter (fun t => t ≤ (min 100 (maxTau / 2) : ℕ))

/-! ## Phase-data file loader (src/validation/generate_real_data_reference.py,
`load_phase_data`, lines 14-47).  A text line is modelled as a list of
characters; the `float` parser is a parameter, since its accepting language is
Python's float syntax and every use below is uniform in it. -/

/-- Whitespace test used by `str.strip` / `str.split`. -/
def isWs (c : Char) : Bool := c.isWhitespace

/-- `line.strip()`: remove leading and trailing whitespace. -/
def trimChars (l : List Char) : List Char :=
  ((l.dropWhile isWs).reverse.dropWhile isWs).reverse

/-- `line.split()[0]` on an already-stripped line: the leading maximal run of
non-whitespace characters. -/
def firstToken (s : List Char) : List Char := s.takeWhile (fun c => !(isWs c))

/-- One iteration of the loader's line loop: strip the line; skip it when it is
blank or starts with `#` or `%`; otherwise parse the first column, yielding
`none` (line dropped) when `parse` fails. -/
def parseLine (parse : List Char → Option ℚ) (line : List Char) : Option ℚ :=
  let s := trimChars line
  if s = [] ∨ s.head? = some '#' ∨ s.head? = some '%' then none
  else parse (firstToken s)

/-- The loader `load_phase_data`: accumulate the parsed values of all
non-skipped lines and raise `ValueError` exactly when none was found. -/
def loadPhaseData (parse : List Char → Option ℚ) (lines : List (List Char)) :
    Except String (List ℚ) :=
  let data := lines.filterMap (parseLine parse)
  if data = [] then Except.error "No valid data found" else Except.ok data

/-! ## Deviation estimators.

The estimator bodies are not part of this repository (the scripts delegate to
the external allantools library), so they are modelled from the
specification, §4.3: phase-domain input, per-tau second/third-difference
accumulation, and the shared edge-case policy that a tau whose required
sample count is below 1 is silently omitted.  Deviations are represented by
their squares (`dev2`, `err2`), which are rational; the deviation itself is
`Real.sqrt dev2`. -/

/-- Phase value accessor `x[i]` (0 outside the series, guarded by the
per-estimator validity conditions). -/
def xval (x : List ℚ) (i : ℕ) : ℚ := x.getD i 0

/-- Modelled from the spec: second phase difference `x[i+2m] - 2x[i+m] + x[i]`
(§4.3, ADEV/MDEV kernels). -/
def d2 (x : List ℚ) (m i : ℕ) : ℚ := xval x (i + 2 * m) - 2 * xval x (i + m) + xval x i

/-- Modelled from the spec: third phase difference
`x[i+3m] - 3x[i+2m] + 3x[i+m] - x[i]` (§4.3, HDEV kernel). -/
def d3 (x : List ℚ) (m i : ℕ) : ℚ :=
  xval x (i + 3 * m) - 3 * xval x (i + 2 * m) + 3 * xval x (i + m) - xval x i

/-- Modelled from the spec: the MDEV inner phase average
`Σ_{i=j}^{j+m-1} (x[i+2m] - 2x[i+m] + x[i])` (§4.3, MDEV). -/
def avgd2 (x : List ℚ) (m j : ℕ) : ℚ := ((List.range m).map (fun i => d2 x m (j + i))).sum

/-- Sum of squares `Σ_{i=0}^{n-1} (f i)^2`. -/
def sumSq (f : ℕ → ℚ) (n : ℕ) : ℚ := ((List.range n).map (fun i => (f i) ^ 2)).sum

/-- Modelled from the spec: squared overlapping ADEV,
`(1/(2 m² τ₀² (N-2m))) Σ_{i} (x[i+2m] - 2x[i+m] + x[i])²` (§4.3). -/
def oadevVar (x : List ℚ) (τ0 : ℚ) (m : ℕ) : ℚ :=
  sumSq (d2 x m) (x.length - 2 * m)
    / (2 * (m : ℚ) ^ 2 * τ0 ^ 2 * ((x.length - 2 * m : ℕ) : ℚ))

/-- Modelled from the spec: squared MDEV,
`(1/(2 m⁴ τ₀² (N-3m+1))) Σ_j (Σ_{i=j}^{j+m-1} (x[i+2m] - 2x[i+m] + x[i]))²` (§4.3). -/
def mdevVar (x : List ℚ) (τ0 : ℚ) (m : ℕ) : ℚ :=
  sumSq (avgd2 x m) (x.length + 1 - 3 * m)
    / (2 * (m : ℚ) ^ 4 * τ0 ^ 2 * ((x.length + 1 - 3 * m : ℕ) : ℚ))

/-- Modelled from the spec: squared overlapping HDEV,
`(1/(6 m² τ₀² (N-3m))) Σ_i (x[i+3m] - 3x[i+2m] + 3x[i+m] - x[i])²` (§4.3). -/
def hdevVar (x : List ℚ) (τ0 : ℚ) (m : ℕ) : ℚ :=
  sumSq (d3 x m) (x.length - 3 * m)
    / (6 * (m : ℚ) ^ 2 * τ0 ^ 2 * ((x.length - 3 * m : ℕ) : ℚ))

/-- Modelled from the spec: squared TIE, the mean square of the raw window
phase differences `x[i+m] - x[i]` (§4.3; the per-window value set is reduced
to its rms so that TIE fits the one-point-per-tau result shape, with `n` the
window count). -/
def tieVar (x : List ℚ) (m : ℕ) : ℚ :=
  sumSq (fun i => xval x (i + m) - xval x i) (x.length - m) / ((x.length - m : ℕ) : ℚ)

/-- The phase values of the window of width `m·τ₀` starting at `i`
(`m + 1` consecutive samples). -/
def windowVals (x : List ℚ) (i m : ℕ) : List ℚ :=
  (List.range (m + 1)).map (fun k => xval x (i + k))

/-- Modelled from the spec: MTIE, the maximum over all windows of width `m` of
`max(x[window]) - min(x[window])` (§4.3); each window range is nonnegative,
so folding the outer maximum from 0 is sound. -/
def mtieVal (x : List ℚ) (m : ℕ) : ℚ :=
  ((List.range (x.length - m)).map
    (fun i => (windowVals x i m).foldl max (xval x i)
      - (windowVals x i m).foldl min (xval x i))).foldl max 0

/-- The estimator kinds modelled here: the six for which §4.3 states the exact
kernel, validity condition and sample count. -/
inductive Kind
  | oadev
  | mdev
  | hdev
  | tdev
  | tie
  | mtie
deriving DecidableEq, Repr

/-- Modelled from the spec: each estimator's closed-form required sample count
at averaging factor `m` for a series of length `N` (§4.3): ADEV `N - 2m`,
MDEV and TDEV `N - 3m + 1`, HDEV `N - 3m`, TIE and MTIE the window count
`N - m`. -/
def reqN (k : Kind) (N m : ℕ) : ℕ :=
  match k with
  | Kind.oadev => N - 2 * m
  | Kind.mdev => N + 1 - 3 * m
  | Kind.hdev => N - 3 * m
  | Kind.tdev => N + 1 - 3 * m
  | Kind.tie => N - m
  | Kind.mtie => N - m

/-- Modelled from the spec: each estimator's squared deviation at one tau
(§4.3); TDEV is derived, `TDEV² = (τ²/3)·MDEV²`. -/
def var2 (k : Kind) (x : List ℚ) (τ0 : ℚ) (m : ℕ) : ℚ :=
  match k with
  | Kind.oadev => oadevVar x τ0 m
  | Kind.mdev => mdevVar x τ0 m
  | Kind.hdev => hdevVar x τ0 m
  | Kind.tdev => ((m : ℚ) * τ0) ^ 2 / 3 * mdevVar x τ0 m
  | Kind.tie => tieVar x m
  | Kind.mtie => (mtieVal x m) ^ 2

/-- One emitted result point: averaging factor, tau, squared deviation,
squared error bar, and contributing sample count. -/
structure DevPoint where
  m : ℕ
  tau : ℚ
  dev2 : ℚ
  err2 : ℚ
  n : ℕ
deriving DecidableEq, Repr

instance : Inhabited DevPoint := ⟨⟨0, 0, 0, 0, 0⟩⟩

/-- Modelled from the spec: the point an estimator emits for a valid `m`;
the error bar follows §4.4, `error = deviation / √edf`, squared here, with the
edf model (`edf`) an explicit configuration parameter as §4.4 requires. -/
def mkPoint (edf : Kind → ℕ → ℚ) (k : Kind) (x : List ℚ) (τ0 : ℚ) (m : ℕ) : DevPoint :=
  { m := m
    tau := (m : ℚ) * τ0
    dev2 := var2 k x τ0 m
    err2 := var2 k x τ0 m / edf k (reqN k x.length m)
    n := reqN k x.length m }

/-- Modelled from the spec: an estimator call (§4.3 and §7): one point per
requested `m` whose required sample count is at least 1, in request order;
invalid taus are silently omitted, never emitted as sentinel values. -/
def runEstimator (edf : Kind → ℕ → ℚ) (k : Kind) (x : List ℚ) (τ0 : ℚ)
    (ms : List ℕ) : List DevPoint :=
  ms.filterMap (fun m =>
    if 1 ≤ reqN k x.length m then some (mkPoint edf k x τ0 m) else none)

/-- The four parallel output sequences of §6 (tau, deviation, error, n),
deviation and error represented by their squares. -/
def tauSeq (R : List DevPoint) : List ℚ := R.map (fun p => p.tau)

def dev2Seq (R : List DevPoint) : List ℚ := R.map (fun p => p.dev2)

def err2Seq (R : List DevPoint) : List ℚ := R.map (fun p => p.err2)

def nSeq (R : List DevPoint) : List ℕ := R.map (fun p => p.n)

lemma mem_runEstimator {edf : Kind → ℕ → ℚ} {k : Kind} {x : List ℚ} {τ0 : ℚ}
    {ms : List ℕ} {p : DevPoint} :
    p ∈ runEstimator edf k x τ0 ms ↔
      p.m ∈ ms ∧ 1 ≤ reqN k x.length p.m ∧ p = mkPoint edf k x τ0 p.m := by
  unfold runEstimator
  rw [List.mem_filterMap]
  constructor
  · rintro ⟨a, ha, hfa⟩
    by_cases h : 1 ≤ reqN k x.length a
    · rw [if_pos h] at hfa
      have hp : p = mkPoint edf k x τ0 a := (Option.some.inj hfa).symm
      have hm : p.m = a := by rw [hp]; rfl
      rw [hm]
      exact ⟨ha, h, by rw [hp]⟩
    · rw [if_neg h] at hfa
      exact absurd hfa (Option.noConfusion)
  · rintro ⟨hm, hc, hp⟩
    exact ⟨p.m, hm, by rw [if_pos hc, ← hp]⟩

lemma runEstimator_pairwise_tau (edf : Kind → ℕ → ℚ) (k : Kind) (x : List ℚ)
    {τ0 : ℚ} {ms : List ℕ} (hms : ms.Pairwise (· < ·)) (hτ : 0 < τ0) :
    (runEstimator edf k x τ0 ms).Pairwise (fun p q => p.tau < q.tau) := by
  induction ms with
  | nil => simp [runEstimator]
  | cons a t ih =>
    rw [List.pairwise_cons] at hms
    show (List.filterMap _ (a :: t)).Pairwise _
    rw [List.filterMap_cons]
    by_cases hc : 1 ≤ reqN k x.length a
    · rw [if_pos hc]
      refine List.pairwise_cons.2 ⟨?_, ih hms.2⟩
      intro q hq
      obtain ⟨hqm, _, hq⟩ := mem_runEstimator.1 hq
      have ha : (a : ℚ) < (q.m : ℚ) := by exact_mod_cast hms.1 _ hqm
      have htau : q.tau = (q.m : ℚ) * τ0 := by rw [hq]; rfl
      show (mkPoint edf k x τ0 a).tau < q.tau
      rw [htau]
      exact mul_lt_mul_of_pos_right ha hτ
    · rw [if_neg hc]
      exact ih hms.2

/-- The pointwise scaling that turns an MDEV point into the corresponding
TDEV point: `TDEV² = (τ²/3)·MDEV²` (§4.3), with the error bar recomputed from
the TDEV edf configuration. -/
def tdTransform (edf : Kind → ℕ → ℚ) (p : DevPoint) : DevPoint :=
  { m := p.m
    tau := p.tau
    dev2 := p.tau ^ 2 / 3 * p.dev2
    err2 := p.tau ^ 2 / 3 * p.dev2 / edf Kind.tdev p.n
    n := p.n }

lemma runEstimator_tdev (edf : Kind → ℕ → ℚ) (x : List ℚ) (τ0 : ℚ) (ms : List ℕ) :
    runEstimator edf Kind.tdev x τ0 ms
      = (runEstimator edf Kind.mdev x τ0 ms).map (tdTransform edf) := by
  induction ms with
  | nil => rfl
  | cons a t ih =>
    show List.filterMap _ (a :: t) = (List.filterMap _ (a :: t)).map _
    rw [List.filterMap_cons, List.filterMap_cons]
    by_cases hc : 1 ≤ reqN Kind.mdev x.length a
    · rw [if_pos hc, if_pos (show 1 ≤ reqN Kind.tdev x.length a from hc), List.map_cons]
      exact congrArg₂ List.cons rfl ih
    · rw [if_neg hc, if_neg (show ¬1 ≤ reqN Kind.tdev x.length a from hc)]
      exact ih

/-! ## Series converter (§4.2).  Modelled from the spec: the converter is part
of the external engine; `toFrequency` first-differences and divides by τ₀,
failing with `InvalidSeries` on series of fewer than two points (the
non-finiteness alternative is vacuous over ℚ), and `toPhase` reconstructs a
phase series by cumulative summation, losing the initial absolute phase. -/

inductive SeriesError
  | invalidSeries
deriving DecidableEq, Repr

/-- Modelled from the spec: `toFrequency(phase)`, the first difference divided
by τ₀; length `N - 1`; fails with `InvalidSeries` when the phase series has
fewer than 2 points. -/
def toFrequency (x : List ℚ) (τ0 : ℚ) : Except SeriesError (List ℚ) :=
  if x.length < 2 then Except.error SeriesError.invalidSeries
  else Except.ok ((List.range (x.length - 1)).map (fun i => (xval x (i + 1) - xval x i) / τ0))

/-- Modelled from the spec: `toPhase(frequency, τ₀)`, cumulative-sum based
reconstruction starting from phase 0 (the lost initial constant); length
`frequency.length + 1`. -/
def toPhase (f : List ℚ) (τ0 : ℚ) : List ℚ :=
  (List.range (f.length + 1)).map (fun k => ((f.take k).sum) * τ0)

lemma cumsum_diff (x : List ℚ) {τ0 : ℚ} (hτ : τ0 ≠ 0) (k : ℕ) :
    ((List.range k).map (fun i => (xval x (i + 1) - xval x i) / τ0)).sum * τ0
      = xval x k - xval x 0 := by
  induction k with
  | zero => simp
  | succ n ih =>
    rw [List.range_succ, List.map_append, List.sum_append]
    simp only [List.map_cons, List.map_nil, List.sum_cons, List.sum_nil, add_zero]
    rw [add_mul, ih, div_mul_cancel₀ _ hτ]
    ring

/-! ## Claims -/

/-- C1 (counterexample): the claim that octave tau generation for N = 1000 and
max fraction 1/4 (max_m = 250) yields {1, 2, 4, 8, 16, 32, 64, 128, 256} is
false: the loop `while m <= max_m` stops before 256, since 256 > 250. -/
theorem octave_claim_counterexample :
    256 ∉ octaveMs (1000 / 4)
      ∧ octaveMs (1000 / 4) ≠ [1, 2, 4, 8, 16, 32, 64, 128, 256] := by
  decide

/-- C1 (amended): octave tau generation for N = 1000 and max fraction 1/4
(max_m = 250) yields exactly {1, 2, 4, 8, 16, 32, 64, 128}, with or without
the benchmark drivers' 20-point cap. -/
theorem octave_tau_generation_amended :
    octaveMs (1000 / 4) = [1, 2, 4, 8, 16, 32, 64, 128]
      ∧ octaveMsCapped (1000 / 4) 20 = [1, 2, 4, 8, 16, 32, 64, 128] := by
  decide

/-- C2: for an input series of fewer than 4 samples, the benchmark drivers'
octave tau generation (max_m = N // 4) yields the empty tau set, and every
estimator run on it returns the empty result — a total function returning no
points, hence no error and no sentinel-valued point. -/
theorem small_series_empty_result (edf : Kind → ℕ → ℚ) (k : Kind) (x : List ℚ)
    (τ0 : ℚ) (hN : x.length < 4) :
    octaveMs (x.length / 4) = []
      ∧ runEstimator edf k x τ0 (octaveMs (x.length / 4)) = [] := by
  have h0 : x.length / 4 = 0 := Nat.div_eq_of_lt hN
  rw [h0]
  exact ⟨rfl, rfl⟩

/-- C2 witness at the three-sample series [1, 2, 3]. -/
theorem small_series_empty_result_witness :
    octaveMs ([(1 : ℚ), 2, 3].length / 4) = []
      ∧ runEstimator (fun _ _ => 1) Kind.oadev [(1 : ℚ), 2, 3] 1
          (octaveMs ([(1 : ℚ), 2, 3].length / 4)) = [] :=
  small_series_empty_result (fun _ _ => 1) Kind.oadev [(1 : ℚ), 2, 3] 1 (by decide)

/-- C3: for every requested averaging factor `m`, the result contains a point
at `m` iff the estimator's required sample count is at least 1 (the tau is
silently omitted otherwise); every emitted point's `n` equals the closed-form
sample count of §4.3, e.g. `N - 2m` for overlapping ADEV. -/
theorem emission_policy_and_sample_count (edf : Kind → ℕ → ℚ) (k : Kind)
    (x : List ℚ) (τ0 : ℚ) (ms : List ℕ) (m : ℕ) (hm : m ∈ ms) :
    ((∃ p ∈ runEstimator edf k x τ0 ms, p.m = m) ↔ 1 ≤ reqN k x.length m)
      ∧ (∀ p ∈ runEstimator edf k x τ0 ms, p.n = reqN k x.length p.m)
      ∧ reqN Kind.oadev x.length m = x.length - 2 * m := by
  refine ⟨⟨?_, ?_⟩, ?_, rfl⟩
  · rintro ⟨p, hp, hpm⟩
    obtain ⟨_, hc, _⟩ := mem_runEstimator.1 hp
    rwa [hpm] at hc
  · intro hc
    exact ⟨mkPoint edf k x τ0 m, mem_runEstimator.2 ⟨hm, hc, rfl⟩, rfl⟩
  · intro p hp
    obtain ⟨_, _, hp⟩ := mem_runEstimator.1 hp
    exact congrArg DevPoint.n hp

/-- C3 witness: overlapping ADEV on a six-sample series with m ∈ {1, 2}. -/
theorem emission_policy_witness :
    2 ∈ [1, 2]
      ∧ ((∃ p ∈ runEstimator (fun _ _ => 1) Kind.oadev [(0 : ℚ), 1, 0, 2, 1, 3] 1 [1, 2],
            p.m = 2)
          ↔ 1 ≤ reqN Kind.oadev [(0 : ℚ), 1, 0, 2, 1, 3].length 2) :=
  ⟨by decide,
    (emission_policy_and_sample_count (fun _ _ => 1) Kind.oadev [(0 : ℚ), 1, 0, 2, 1, 3]
      1 [1, 2] 2 (by decide)).1⟩

/-- C4: TDEV emits a point at a tau exactly when MDEV does (same emitted
m-list), and each TDEV deviation equals (τ/√3) times the MDEV deviation at
the same tau — exactly, in the real-number model of the engine. -/
theorem tdev_eq_scaled_mdev (edf : Kind → ℕ → ℚ) (x : List ℚ) (τ0 : ℚ)
    (ms : List ℕ) (hτ : 0 ≤ τ0) :
    (runEstimator edf Kind.tdev x τ0 ms).map (fun p => p.m)
        = (runEstimator edf Kind.mdev x τ0 ms).map (fun p => p.m)
      ∧ ∀ i : ℕ,
        Real.sqrt (((runEstimator edf Kind.tdev x τ0 ms).getD i default).dev2 : ℝ)
          = (((runEstimator edf Kind.tdev x τ0 ms).getD i default).tau : ℝ) / Real.sqrt 3
            * Real.sqrt (((runEstimator edf Kind.mdev x τ0 ms).getD i default).dev2 : ℝ) := by
  constructor
  · rw [runEstimator_tdev, List.map_map]
    rfl
  · intro i
    rw [runEstimator_tdev]
    rcases h : (runEstimator edf Kind.mdev x τ0 ms)[i]? with _ | p
    · have hnone : ((runEstimator edf Kind.mdev x τ0 ms).map (tdTransform edf))[i]? = none := by
        rw [List.getElem?_map, h]
        rfl
      rw [List.getD_eq_getElem?_getD, List.getD_eq_getElem?_getD, hnone, h]
      show Real.sqrt ((0 : ℚ) : ℝ)
        = (((0 : ℚ) : ℝ)) / Real.sqrt 3 * Real.sqrt ((0 : ℚ) : ℝ)
      simp
    · have hp : p ∈ runEstimator edf Kind.mdev x τ0 ms := List.getElem?_mem h
      obtain ⟨_, _, hpe⟩ := mem_runEstimator.1 hp
      have htau0 : (0 : ℝ) ≤ (p.tau : ℝ) := by
        have ht : p.tau = (p.m : ℚ) * τ0 := congrArg DevPoint.tau hpe
        rw [ht]
        push_cast
        exact mul_nonneg (Nat.cast_nonneg _) (by exact_mod_cast hτ)
      have hsome : ((runEstimator edf Kind.mdev x τ0 ms).map (tdTransform edf))[i]?
          = some (tdTransform edf p) := by
        rw [List.getElem?_map, h]
        rfl
      rw [List.getD_eq_getElem?_getD, List.getD_eq_getElem?_getD, hsome, h]
      show Real.sqrt ((p.tau ^ 2 / 3 * p.dev2 : ℚ) : ℝ)
        = ((p.tau : ℝ)) / Real.sqrt 3 * Real.sqrt ((p.dev2 : ℚ) : ℝ)
      push_cast
      rw [Real.sqrt_mul (by positivity), Real.sqrt_div (by positivity), Real.sqrt_sq htau0]

/-- C4 witness at a nine-sample series, τ₀ = 1, m ∈ {1, 2}. -/
theorem tdev_eq_scaled_mdev_witness :
    (0 : ℚ) ≤ 1
      ∧ (runEstimator (fun _ _ => 1) Kind.tdev [(0 : ℚ), 1, 3, 2, 5, 4, 6, 3, 7] 1 [1, 2]).map
            (fun p => p.m)
          = (runEstimator (fun _ _ => 1) Kind.mdev [(0 : ℚ), 1, 3, 2, 5, 4, 6, 3, 7] 1 [1, 2]).map
            (fun p => p.m) :=
  ⟨by decide,
    (tdev_eq_scaled_mdev (fun _ _ => 1) [(0 : ℚ), 1, 3, 2, 5, 4, 6, 3, 7] 1 [1, 2]
      (by decide)).1⟩

/-- C5: an estimator call returns four parallel sequences — tau, (squared)
deviation, (squared) error, n — of equal length, ordered by strictly
increasing tau whenever the requested tau set is strictly increasing and
τ₀ > 0. -/
theorem parallel_sequences_sorted (edf : Kind → ℕ → ℚ) (k : Kind) (x : List ℚ)
    (τ0 : ℚ) (ms : List ℕ) (hms : ms.Sorted (· < ·)) (hτ : 0 < τ0) :
    (tauSeq (runEstimator edf k x τ0 ms)).length
        = (dev2Seq (runEstimator edf k x τ0 ms)).length
      ∧ (tauSeq (runEstimator edf k x τ0 ms)).length
        = (err2Seq (runEstimator edf k x τ0 ms)).length
      ∧ (tauSeq (runEstimator edf k x τ0 ms)).length
        = (nSeq (runEstimator edf k x τ0 ms)).length
      ∧ (tauSeq (runEstimator edf k x τ0 ms)).Sorted (· < ·) := by
  refine ⟨by simp [tauSeq, dev2Seq], by simp [tauSeq, err2Seq], by simp [tauSeq, nSeq], ?_⟩
  exact List.pairwise_map.mpr (runEstimator_pairwise_tau edf k x hms hτ)

/-- C5 witness: overlapping HDEV on a ten-sample series with m ∈ {1, 2}. -/
theorem parallel_sequences_sorted_witness :
    List.Sorted (· < ·) [1, 2]
      ∧ (0 : ℚ) < 1
      ∧ (tauSeq (runEstimator (fun _ _ => 1) Kind.hdev
          [(0 : ℚ), 2, 1, 3, 2, 4, 3, 5, 4, 6] 1 [1, 2])).Sorted (· < ·) :=
  ⟨by decide, by decide,
    (parallel_sequences_sorted (fun _ _ => 1) Kind.hdev [(0 : ℚ), 2, 1, 3, 2, 4, 3, 5, 4, 6]
      1 [1, 2] (by decide) (by decide)).2.2.2⟩

/-- C6: the explicit-list tau strategy returns the caller-supplied values
deduplicated and sorted into strictly increasing order, and no value is
otherwise rejected: membership in the output coincides with membership in
the input, whatever the values' magnitudes. -/
theorem explicit_list_dedup_sort (l : List ℚ) :
    (explicitTaus l).Sorted (· < ·) ∧ ∀ v : ℚ, v ∈ explicitTaus l ↔ v ∈ l := by
  refine ⟨Finset.sort_sorted_lt _, fun v => ?_⟩
  rw [explicitTaus, Finset.mem_sort, List.mem_toFinset]

/-- C7: converting a phase series of at least two samples to frequency and
back (same τ₀ ≠ 0) reproduces the series exactly up to the single additive
constant x[0] lost by the reconstruction. -/
theorem phase_frequency_roundtrip (x : List ℚ) (τ0 : ℚ) (hlen : 2 ≤ x.length)
    (hτ : τ0 ≠ 0) :
    ∃ f, toFrequency x τ0 = Except.ok f
      ∧ toPhase f τ0 = x.map (fun v => v - xval x 0) := by
  refine ⟨(List.range (x.length - 1)).map (fun i => (xval x (i + 1) - xval x i) / τ0), ?_, ?_⟩
  · rw [toFrequency, if_neg (by omega)]
  · apply List.ext_getElem
    · simp [toPhase]
      omega
    · intro k hk1 hk2
      have hkx : k < x.length := by
        rw [List.length_map] at hk2
        exact hk2
      have hkn : k ≤ x.length - 1 := by omega
      simp only [toPhase, List.getElem_map, List.getElem_range]
      rw [← List.map_take, List.take_range, Nat.min_eq_left hkn, cumsum_diff x hτ k]
      show xval x k - xval x 0 = x[k] - xval x 0
      rw [show xval x k = x[k] from List.getD_eq_getElem x 0 hkx]

/-- C7 witness at the phase series [3, 5, 4] with τ₀ = 2. -/
theorem phase_frequency_roundtrip_witness :
    ∃ f, toFrequency [(3 : ℚ), 5, 4] 2 = Except.ok f
      ∧ toPhase f 2 = [(3 : ℚ), 5, 4].map (fun v => v - xval [(3 : ℚ), 5, 4] 0) :=
  phase_frequency_roundtrip [(3 : ℚ), 5, 4] 2 (by decide) (by decide)

/-- C8: the benchmark drivers' octave m-list is additionally capped at 20
entries: the capped list is always the 20-entry prefix of the uncapped one
(hence never longer than 20), and at the drivers' N = 5·10⁶ the uncapped list
has 21 entries, so the cap genuinely cuts it. -/
theorem octave_cap_twenty :
    (∀ maxM, octaveMsCapped maxM 20 = (octaveMs maxM).take 20
        ∧ (octaveMsCapped maxM 20).length ≤ 20)
      ∧ 20 < (octaveMs (5000000 / 4)).length
      ∧ octaveMsCapped (5000000 / 4) 20 = (octaveMs (5000000 / 4)).take 20 := by
  refine ⟨fun maxM => ⟨octaveMsCapped_eq_take _ _, ?_⟩, by decide, octaveMsCapped_eq_take _ _⟩
  rw [octaveMsCapped_eq_take, List.length_take]
  exact min_le_left _ _

/-- C9: the loader skips blank lines and lines starting (after stripping) with
`#` or `%`; on the remaining lines it parses only the first
whitespace-separated column, silently dropping lines whose first column does
not parse; it fails with the ValueError exactly when no valid value was found
in the whole file, and otherwise returns exactly the parsed values. -/
theorem loader_line_policy (parse : List Char → Option ℚ)
    (lines : List (List Char)) (line : List Char) :
    (trimChars line = [] → parseLine parse line = none)
      ∧ ((trimChars line).head? = some '#' → parseLine parse line = none)
      ∧ ((trimChars line).head? = some '%' → parseLine parse line = none)
      ∧ (trimChars line ≠ [] → (trimChars line).head? ≠ some '#' →
          (trimChars line).head? ≠ some '%' →
          parseLine parse line = parse (firstToken (trimChars line)))
      ∧ (loadPhaseData parse lines = Except.error "No valid data found"
          ↔ lines.filterMap (parseLine parse) = [])
      ∧ (∀ d, loadPhaseData parse lines = Except.ok d →
          d = lines.filterMap (parseLine parse) ∧ d ≠ []) := by
  refine ⟨?_, ?_, ?_, ?_, ?_, ?_⟩
  · intro h
    simp [parseLine, h]
  · intro h
    simp [parseLine, h]
  · intro h
    simp [parseLine, h]
  · intro h1 h2 h3
    simp [parseLine, h1, h2, h3]
  · by_cases hd : lines.filterMap (parseLine parse) = []
    · simp [loadPhaseData, hd]
    · simp [loadPhaseData, hd]
  · intro d hd
    by_cases hempty : lines.filterMap (parseLine parse) = []
    · simp [loadPhaseData, hempty] at hd
    · simp only [loadPhaseData, if_neg hempty, Except.ok.injEq] at hd
      exact ⟨hd.symm, hd ▸ hempty⟩

/-- C9 witness: a comment line parses to nothing, and a file with only a blank
line and a comment line fails with the ValueError. -/
theorem loader_line_policy_witness :
    parseLine (fun _ => none) [' ', '#', 'x'] = none
      ∧ loadPhaseData (fun _ => none) [[' '], ['#', 'x']]
        = Except.error "No valid data found" := by
  have h := loader_line_policy (fun _ => none) [[' '], ['#', 'x']] [' ', '#', 'x']
  exact ⟨h.2.1 (by decide), (h.2.2.2.2.1).2 (by decide)⟩

/-- C10: the tau lists both reference generators pass to TIE/MTIE are filters
of the general tau list (≤ 50 in the synthetic generator, ≤ min(100,
max_tau/2) in the real-data one), hence sublists of the taus every other
estimator receives. -/
theorem tie_taus_subset (taus : List ℚ) (maxTau : ℕ) :
    List.Sublist (tieTausSynthetic taus) taus
      ∧ List.Sublist (tieTausReal taus maxTau) taus
      ∧ (∀ v ∈ tieTausSynthetic taus, v ≤ 50)
      ∧ (∀ v ∈ tieTausReal taus maxTau, v ≤ (min 100 (maxTau / 2) : ℕ)) := by
  refine ⟨List.filter_sublist _, List.filter_sublist _, ?_, ?_⟩
  · intro v hv
    rw [tieTausSynthetic] at hv
    simp only [List.mem_filter, decide_eq_true_eq] at hv
    exact hv.2
  · intro v hv
    rw [tieTausReal] at hv
    simp only [List.mem_filter, decide_eq_true_eq] at hv
    exact hv.2

/-- C10 witness: the synthetic generator's TIE tau list is a sublist of the
general tau list. -/
theorem tie_taus_subset_witness :
    List.Sublist (tieTausSynthetic [(10 : ℚ), 60]) [(10 : ℚ), 60] :=
  (tie_taus_subset [(10 : ℚ), 60] 500).1

end StabLab
